import Mathlib

/-!
Verification of the simple-redis-mutex lock protocol.

The development shallowly embeds the current-generation implementation
(src/index.ts, the file with fencing tokens and refreshTimeout) and, where a
claim concerns it, the earlier generation (src/src/index.ts), over an explicit
Redis store state.  Pure functions of the source become Lean functions; the
closure state of the release handle and of one blocking lock() call become
explicit records that the embedded operations thread through.
-/

/-- Redis store state as the mutex uses it: the string keyspace (each key
holding a value and an absolute expiry deadline in milliseconds), the global
fencing-token counter key `@simple-redis-mutex:fencing-tokens` (kept as its own
field; the lemma `getLockKey_ne_counterKey` shows it is disjoint from every
lock key), the pub/sub messages published so far, and the current time in
milliseconds. -/
structure RedisState where
  kv : List (String × String × Nat)
  counter : Nat
  published : List (String × String)
  now : Nat
deriving DecidableEq, Repr

/-- Raw lookup in the keyspace, ignoring expiry. -/
def kvFind : List (String × String × Nat) → String → Option (String × Nat)
  | [], _ => none
  | e :: rest, k => if e.1 = k then some e.2 else kvFind rest k

/-- Remove a key from the keyspace. -/
def kvErase : List (String × String × Nat) → String → List (String × String × Nat)
  | [], _ => []
  | e :: rest, k => if e.1 = k then kvErase rest k else e :: kvErase rest k

/-- Store or overwrite a key with a value and expiry deadline. -/
def kvSet (kv : List (String × String × Nat)) (k v : String) (expireAt : Nat) :
    List (String × String × Nat) :=
  (k, v, expireAt) :: kvErase kv k

/-- Redis GET: the stored value when the key is present and not expired.  An
expired key behaves exactly like an absent one. -/
def redisGet (st : RedisState) (k : String) : Option String :=
  match kvFind st.kv k with
  | none => none
  | some vd => if st.now < vd.2 then some vd.1 else none

/-- Constant REDIS_OK (src/index.ts line 18). -/
def REDIS_OK : String := "OK"

/-- Constant REDIS_RELEASES_CHANNEL (src/index.ts line 16). -/
def REDIS_RELEASES_CHANNEL : String := "@simple-redis-mutex:locks-releases"

/-- Constant REDIS_FENCING_TOKENS_COUNTER (src/index.ts line 17). -/
def REDIS_FENCING_TOKENS_COUNTER : String := "@simple-redis-mutex:fencing-tokens"

/-- Constant DEFAULT_TIMEOUT (src/index.ts line 20). -/
def DEFAULT_TIMEOUT : Nat := 30000

/-- Constant DEFAULT_POLLING_INTERVAL (src/index.ts line 21). -/
def DEFAULT_POLLING_INTERVAL : Nat := 10000

/-- getLockKey (src/index.ts lines 206-208). -/
def getLockKey (lockName : String) : String :=
  "@simple-redis-mutex:lock-" ++ lockName

/-- Redis SET key value NX PX px: create the key only if absent (expired counts
as absent), with expiry deadline now + px; the reply is 'OK' on success and nil
on failure, and a failed set has no effect on the store. -/
def redisSetNxPx (st : RedisState) (k v : String) (px : Nat) :
    Option String × RedisState :=
  if redisGet st k = none then
    (some REDIS_OK, { st with kv := kvSet st.kv k v (st.now + px) })
  else (none, st)

/-- Redis INCR on the fencing-token counter key: atomically increment and
return the new value (Redis integers arrive as numbers, hence Int). -/
def redisIncr (st : RedisState) : Int × RedisState :=
  (((st.counter + 1 : Nat) : Int), { st with counter := st.counter + 1 })

/-- Redis PEXPIRE key px: reset the expiry deadline of a live key to
now + px; no-op when the key is absent or expired. -/
def redisPExpire (st : RedisState) (k : String) (px : Nat) : RedisState :=
  match kvFind st.kv k with
  | none => st
  | some vd => if st.now < vd.2 then { st with kv := kvSet st.kv k vd.1 (st.now + px) } else st

/-- Redis PUBLISH channel msg. -/
def redisPublish (st : RedisState) (channel msg : String) : RedisState :=
  { st with published := st.published ++ [(channel, msg)] }

/-- Passage of d milliseconds (drives lease expiry). -/
def redisTick (st : RedisState) (d : Nat) : RedisState :=
  { st with now := st.now + d }

/-- The message the release Lua script formats and publishes
(src/index.ts lines 230-234): string.format of the key and value. -/
def releaseMessage (lockKey lockValue : String) : String :=
  "\x7b \"key\": \"" ++ lockKey ++ "\", \"value\": \"" ++ lockValue ++ "\" \x7d"

/-- The atomic release Lua script (src/index.ts lines 223-236): if GET lockKey
equals lockValue, DEL the key and PUBLISH the release message on the updates
channel; otherwise do nothing.  Redis runs the whole script atomically. -/
def releaseScript (st : RedisState) (lockKey updatesChannel lockValue : String) :
    RedisState :=
  if redisGet st lockKey = some lockValue then
    redisPublish { st with kv := kvErase st.kv lockKey } updatesChannel
      (releaseMessage lockKey lockValue)
  else st

/-- Closure state of a ReleaseFunc handle returned by tryLock
(src/index.ts lines 132-177).  acquired = false is the dummy handle of a
failed attempt (lines 133-137), whose actions resolve immediately; released is
the mutable idempotency flag the closures share (lines 140, 151, 164, 170). -/
structure ReleaseFunc where
  acquired : Bool
  lockKey : String
  lockValue : String
  timeout : Nat
  fencingToken : Int
  released : Bool
deriving DecidableEq, Repr

/-- tryLock (src/index.ts lines 117-178).  The fresh random lock value
(Math.random(), line 123) is an input.  A SET NX PX reply other than 'OK'
yields (false, dummy handle with fencing token -1); on 'OK' the fencing
counter is INCRed once and the real handle is returned.  listenForUpdates
(line 125) only touches in-process subscriber state, not the store. -/
def tryLock (st : RedisState) (lockName lockValue : String) (timeout : Nat) :
    (Bool × ReleaseFunc) × RedisState :=
  let lockKey := getLockKey lockName
  let r := redisSetNxPx st lockKey lockValue timeout
  if r.1 ≠ some REDIS_OK then
    ((false, { acquired := false, lockKey := lockKey, lockValue := lockValue,
               timeout := timeout, fencingToken := -1, released := false }), r.2)
  else
    let ir := redisIncr r.2
    ((true, { acquired := true, lockKey := lockKey, lockValue := lockValue,
              timeout := timeout, fencingToken := ir.1, released := false }), ir.2)

/-- The release action (src/index.ts lines 141-165) when the store round trip
succeeds: a dummy handle resolves at once; an already-released handle returns
before touching the store (line 142); otherwise the release script runs once
(the eval / script-cache paths have the same store effect) and the handle is
marked released. -/
def release (st : RedisState) (f : ReleaseFunc) : RedisState × ReleaseFunc :=
  if f.acquired = false then (st, f)
  else if f.released = true then (st, f)
  else (releaseScript st f.lockKey REDIS_RELEASES_CHANNEL f.lockValue,
        { f with released := true })

/-- The release action (src/index.ts lines 141-165) when the effective script
execution may raise a store error (storeErr = some e).  On the cluster path
(line 150) the eval is not guarded; on the script-cache path only NOSCRIPT
errors are handled internally (lines 158-161, modelled as part of a successful
effective execution) and any other error is rethrown (line 160).  Either way a
store error propagates to the caller and line 164 is not reached, so the
handle is not marked released. -/
def releaseWithError (st : RedisState) (f : ReleaseFunc) (storeErr : Option String) :
    Except String (RedisState × ReleaseFunc) :=
  if f.acquired = false then Except.ok (st, f)
  else if f.released = true then Except.ok (st, f)
  else
    match storeErr with
    | some e => Except.error e
    | none => Except.ok (releaseScript st f.lockKey REDIS_RELEASES_CHANNEL f.lockValue,
        { f with released := true })

/-- The release action of the earlier generation (src/src/index.ts lines
134-144): the released flag is set before the store call (line 136), and a
store error from the eval is caught and logged (line 143), never rethrown. -/
def releaseLogged (st : RedisState) (f : ReleaseFunc) (storeErr : Option String) :
    Except String (RedisState × ReleaseFunc) :=
  if f.released = true then Except.ok (st, f)
  else
    match storeErr with
    | some _ => Except.ok (st, { f with released := true })
    | none => Except.ok (releaseScript st f.lockKey REDIS_RELEASES_CHANNEL f.lockValue,
        { f with released := true })

/-- refreshTimeout (src/index.ts lines 168-175): a dummy handle resolves at
once (line 134); otherwise, when the handle is already released or the key no
longer holds this handle's value, mark the handle released and return without
touching expiry; else PEXPIRE the key by the original timeout. -/
def refreshTimeout (st : RedisState) (f : ReleaseFunc) : RedisState × ReleaseFunc :=
  if f.acquired = false then (st, f)
  else if f.released = true ∨ redisGet st f.lockKey ≠ some f.lockValue then
    (st, { f with released := true })
  else (redisPExpire st f.lockKey f.timeout, f)

/-- Client-visible protocol event against one store: a tryLock call (with the
externally generated random lock value), one execution of the release script,
or the passage of time (lease expiry). -/
inductive Ev where
  | tryAcq (name value : String) (timeout : Nat)
  | rel (lockKey lockValue : String)
  | tick (d : Nat)
deriving DecidableEq, Repr

/-- Run a list of protocol events, collecting the fencing tokens of the
successful acquisitions in order of issuance. -/
def runEvents : RedisState → List Ev → RedisState × List Int
  | st, [] => (st, [])
  | st, Ev.tryAcq n v t :: rest =>
      let r := tryLock st n v t
      let rr := runEvents r.2 rest
      (rr.1, if r.1.1 then r.1.2.fencingToken :: rr.2 else rr.2)
  | st, Ev.rel k v :: rest => runEvents (releaseScript st k REDIS_RELEASES_CHANNEL v) rest
  | st, Ev.tick d :: rest => runEvents (redisTick st d) rest

/-- Event predicate: a tryLock call on the given name with a positive lease
timeout (Redis rejects PX 0), used to say a trace is N bare try-acquire calls
on one name with no release and no passage of time in between. -/
def isTryAcqOn (n : String) : Ev → Bool
  | Ev.tryAcq m _ t => m == n && decide (0 < t)
  | _ => false

deriving instance DecidableEq for Except

/-- In-process state of one blocking lock() call (src/index.ts lines 53-100):
the attempting flag (line 62), whether the wake callback is still registered in
the module callbacks list (pushed line 87, filtered out line 78), whether the
polling interval and the failAfter timer are scheduled (pollingId and failId,
lines 59-60), the promise outcome (a JS promise settles at most once), and how
many times onFail has run. -/
structure LockOp where
  attempting : Bool
  registered : Bool
  pollingActive : Bool
  failActive : Bool
  settled : Option (Except String ReleaseFunc)
  onFailCount : Nat
deriving DecidableEq, Repr

/-- State of a lock() call right after the synchronous prologue (lines 87-98):
attempting, registered, timers scheduled as configured, promise pending. -/
def lockInit (hasPolling hasFailAfter : Bool) : LockOp :=
  { attempting := true, registered := true, pollingActive := hasPolling,
    failActive := hasFailAfter, settled := none, onFailCount := 0 }

/-- Settling the promise: the first resolution or rejection wins, any later
one is ignored (JS promise semantics for resolve and reject). -/
def settle (op : LockOp) (r : Except String ReleaseFunc) : LockOp :=
  match op.settled with
  | some _ => op
  | none => { op with settled := some r }

/-- clean (src/index.ts lines 74-85): stop attempting, remove this call's
callback from the module callbacks list, clear both timers. -/
def clean (op : LockOp) : LockOp :=
  { op with attempting := false, registered := false,
            pollingActive := false, failActive := false }

/-- One full run of attempt() (src/index.ts lines 63-72), fired by the initial
call, a release notification, or the polling interval: when the attempting flag
is off it returns at once without a store round trip; otherwise it performs
tryLock and, on success, runs clean() and resolves the promise with the release
handle.  The store round trip is treated as atomic (spec section 5: try-acquire
is not cancellable mid-flight). -/
def attemptStep (op : LockOp) (st : RedisState) (lockName lockValue : String)
    (timeout : Nat) : LockOp × RedisState :=
  if op.attempting = false then (op, st)
  else
    let r := tryLock st lockName lockValue timeout
    if r.1.1 = false then (op, r.2)
    else (settle (clean op) (Except.ok r.1.2), r.2)

/-- Error message of the failAfter rejection (src/index.ts line 94). -/
def failMessage (lockName : String) (failAfter : Nat) : String :=
  "Lock \"" ++ lockName ++ "\" could not be acquired after "
    ++ toString failAfter ++ " millis"

/-- The failAfter timer callback (src/index.ts lines 91-95).  The timer can
only fire while it is still scheduled (failActive); firing runs clean(), then
the optional onFail callback, then rejects the promise with the error naming
the lock and the deadline. -/
def deadlineStep (op : LockOp) (lockName : String) (failAfter : Nat) : LockOp :=
  if op.failActive = false then op
  else
    let op1 := clean op
    let op2 := { op1 with onFailCount := op1.onFailCount + 1 }
    settle op2 (Except.error (failMessage lockName failAfter))

lemma kvFind_kvErase_self (kv : List (String × String × Nat)) (k : String) :
    kvFind (kvErase kv k) k = none := by
  induction kv with
  | nil => rfl
  | cons e rest ih =>
    by_cases h : e.1 = k
    · simp [kvErase, h, ih]
    · simp [kvErase, kvFind, h, ih]

lemma kvFind_kvErase_ne (kv : List (String × String × Nat)) (k k2 : String)
    (h : k2 ≠ k) : kvFind (kvErase kv k) k2 = kvFind kv k2 := by
  have h4 : k ≠ k2 := fun hh => h hh.symm
  induction kv with
  | nil => rfl
  | cons e rest ih =>
    by_cases h1 : e.1 = k
    · have h3 : e.1 ≠ k2 := by rw [h1]; exact h4
      simp [kvErase, kvFind, h1, h3, h4, h, ih]
    · by_cases h2 : e.1 = k2
      · simp [kvErase, kvFind, h1, h2, h4, h]
      · simp [kvErase, kvFind, h1, h2, h4, h, ih]

lemma redisGet_kvSet_self (st : RedisState) (k v : String) (e : Nat) :
    redisGet { st with kv := kvSet st.kv k v e } k
      = if st.now < e then some v else none := by
  simp [redisGet, kvSet, kvFind]

lemma redisGet_kvSet_ne (st : RedisState) (k v : String) (e : Nat) (k2 : String)
    (h : k2 ≠ k) :
    redisGet { st with kv := kvSet st.kv k v e } k2 = redisGet st k2 := by
  have h4 : k ≠ k2 := fun hh => h hh.symm
  simp [redisGet, kvSet, kvFind, h, h4, kvFind_kvErase_ne st.kv k k2 h]

lemma tryLock_of_absent (st : RedisState) (n v : String) (t : Nat)
    (h : redisGet st (getLockKey n) = none) :
    tryLock st n v t =
      ((true, { acquired := true, lockKey := getLockKey n, lockValue := v,
                timeout := t, fencingToken := ((st.counter + 1 : Nat) : Int),
                released := false }),
       { st with kv := kvSet st.kv (getLockKey n) v (st.now + t),
                 counter := st.counter + 1 }) := by
  simp [tryLock, redisSetNxPx, redisIncr, h]

lemma tryLock_of_live (st : RedisState) (n v w : String) (t : Nat)
    (h : redisGet st (getLockKey n) = some w) :
    tryLock st n v t =
      ((false, { acquired := false, lockKey := getLockKey n, lockValue := v,
                 timeout := t, fencingToken := -1, released := false }), st) := by
  simp [tryLock, redisSetNxPx, h]

lemma releaseScript_counter (st : RedisState) (k ch v : String) :
    (releaseScript st k ch v).counter = st.counter := by
  unfold releaseScript redisPublish
  split <;> rfl

lemma runEvents_no_success (n : String) (evs : List Ev) :
    ∀ (st : RedisState) (w : String),
    redisGet st (getLockKey n) = some w → evs.all (isTryAcqOn n) = true →
    runEvents st evs = (st, []) := by
  induction evs with
  | nil => intro st w _ _; rfl
  | cons e rest ih =>
    intro st w h hall
    cases e with
    | tryAcq m v t =>
      simp only [List.all_cons, Bool.and_eq_true, isTryAcqOn, beq_iff_eq,
        decide_eq_true_eq] at hall
      obtain ⟨⟨hm, _⟩, hrest⟩ := hall
      subst hm
      have hr := tryLock_of_live st m v w t h
      simp [runEvents, hr, ih st w h hrest]
    | rel k v => simp [List.all_cons, isTryAcqOn] at hall
    | tick d => simp [List.all_cons, isTryAcqOn] at hall

lemma runEvents_single_success (n : String) (evs : List Ev) (st : RedisState)
    (habs : redisGet st (getLockKey n) = none) (hne : evs ≠ [])
    (hall : evs.all (isTryAcqOn n) = true) :
    (runEvents st evs).2.length = 1 := by
  cases evs with
  | nil => exact absurd rfl hne
  | cons e rest =>
    cases e with
    | tryAcq m v t =>
      simp only [List.all_cons, Bool.and_eq_true, isTryAcqOn, beq_iff_eq,
        decide_eq_true_eq] at hall
      obtain ⟨⟨hm, ht⟩, hrest⟩ := hall
      subst hm
      have hr := tryLock_of_absent st m v t habs
      have hlive : redisGet
          { st with kv := kvSet st.kv (getLockKey m) v (st.now + t),
                    counter := st.counter + 1 } (getLockKey m) = some v := by
        simp [redisGet, kvSet, kvFind]
        omega
      have hrun := runEvents_no_success m rest _ v hlive hrest
      simp [runEvents, hr, hrun]
    | rel k v => simp [List.all_cons, isTryAcqOn] at hall
    | tick d => simp [List.all_cons, isTryAcqOn] at hall

lemma runEvents_tokens (evs : List Ev) : ∀ st : RedisState,
    (∀ x ∈ (runEvents st evs).2, (st.counter : Int) < x) ∧
    List.Chain' (fun a b : Int => a < b) (runEvents st evs).2 := by
  induction evs with
  | nil => intro st; simp [runEvents]
  | cons e rest ih =>
    intro st
    cases e with
    | tryAcq n v t =>
      by_cases h : redisGet st (getLockKey n) = none
      · have hr := tryLock_of_absent st n v t h
        obtain ⟨ihAll, ihChain⟩ :=
          ih { st with kv := kvSet st.kv (getLockKey n) v (st.now + t),
                       counter := st.counter + 1 }
        constructor
        · intro x hx
          simp [runEvents, hr] at hx
          rcases hx with hx | hx
          · subst hx; omega
          · have h5 := ihAll x hx
            simp at h5
            omega
        · simp [runEvents, hr]
          rw [List.chain'_cons']
          refine ⟨?_, ihChain⟩
          intro y hy
          have h5 := ihAll y (List.mem_of_mem_head? hy)
          simp at h5
          omega
      · obtain ⟨w, hw⟩ : ∃ w, redisGet st (getLockKey n) = some w := by
          cases hg : redisGet st (getLockKey n) with
          | none => exact absurd hg h
          | some w => exact ⟨w, rfl⟩
        have hr := tryLock_of_live st n v w t hw
        simpa [runEvents, hr] using ih st
    | rel k v =>
      have h2 := releaseScript_counter st k REDIS_RELEASES_CHANNEL v
      simpa [runEvents, h2] using ih (releaseScript st k REDIS_RELEASES_CHANNEL v)
    | tick d =>
      simpa [runEvents, redisTick] using ih (redisTick st d)

lemma getLockKey_ne_counterKey (lockName : String) :
    getLockKey lockName ≠ REDIS_FENCING_TOKENS_COUNTER := by
  intro h
  have h2 := congrArg (fun s : String => s.data.take 21) h
  simp only [getLockKey, REDIS_FENCING_TOKENS_COUNTER, String.data_append] at h2
  rw [List.take_append_of_le_length (by decide)] at h2
  exact absurd h2 (by decide)

/-- Claim C1: mutual exclusion.  While the lock key of a name is live in the
store, every further tryLock on that name returns acquired = false; and a
nonempty run of bare tryLock calls on one name (each with a positive lease
timeout, with no release and no passage of time in between) starting from a
state where the key is absent produces exactly one successful acquisition. -/
theorem spec_C1_mutual_exclusion (st : RedisState) (n v w : String) (t : Nat)
    (evs : List Ev) :
    (redisGet st (getLockKey n) = some w → (tryLock st n v t).1.1 = false) ∧
    (redisGet st (getLockKey n) = none → evs ≠ [] →
      evs.all (isTryAcqOn n) = true → (runEvents st evs).2.length = 1) := by
  constructor
  · intro h
    simp [tryLock_of_live st n v w t h]
  · intro habs hne hall
    exact runEvents_single_success n evs st habs hne hall

/-- Witness for C1: with the key of lock "r" live, a tryLock fails; three
consecutive tryLock calls on "r" from an empty store yield exactly one
success. -/
theorem spec_C1_witness :
    (tryLock (⟨[("@simple-redis-mutex:lock-r", "a", 100)], 1, [], 0⟩ : RedisState)
        "r" "b" 100).1.1 = false ∧
    (runEvents (⟨[], 0, [], 0⟩ : RedisState)
        [Ev.tryAcq "r" "v1" 100, Ev.tryAcq "r" "v2" 100,
         Ev.tryAcq "r" "v3" 100]).2.length = 1 :=
  ⟨(spec_C1_mutual_exclusion _ "r" "b" "a" 100 []).1 (by decide),
   (spec_C1_mutual_exclusion _ "r" "" "" 1 _).2 (by decide) (by decide) (by decide)⟩

/-- Claim C2: safe release.  For a live handle of a successful acquisition,
the release deletes the key and publishes the release notification only when
the stored value still equals the handle's lock value; when the key holds
anything else (new holder after expiry) the store is left completely
unchanged. -/
theorem spec_C2_safe_release (st : RedisState) (f : ReleaseFunc)
    (hacq : f.acquired = true) (hrel : f.released = false) :
    (redisGet st f.lockKey ≠ some f.lockValue → (release st f).1 = st) ∧
    (redisGet st f.lockKey = some f.lockValue →
      (release st f).1 =
        { st with kv := kvErase st.kv f.lockKey,
                  published := st.published
                    ++ [(REDIS_RELEASES_CHANNEL,
                         releaseMessage f.lockKey f.lockValue)] }) := by
  constructor
  · intro h
    simp [release, releaseScript, hacq, hrel, h]
  · intro h
    simp [release, releaseScript, redisPublish, hacq, hrel, h]

/-- Safe-release scenario: holder A acquires lock "r" with a 50 ms lease from
an empty store. -/
def c2RunA : (Bool × ReleaseFunc) × RedisState :=
  tryLock (⟨[], 0, [], 0⟩ : RedisState) "r" "va" 50

/-- Holder A's release handle in the safe-release scenario. -/
def c2HandleA : ReleaseFunc := c2RunA.1.2

/-- Store state after A's lease expired (55 ms passed) and holder B acquired
lock "r". -/
def c2StateB : RedisState := (tryLock (redisTick c2RunA.2 55) "r" "vb" 50).2

/-- Witness for C2, on the spec's own scenario: A's lease expired, B holds the
lock, and A's release call leaves the store (hence B's key) unchanged. -/
theorem spec_C2_witness :
    redisGet c2StateB (getLockKey "r") = some "vb" ∧
    (release c2StateB c2HandleA).1 = c2StateB :=
  ⟨by decide,
   (spec_C2_safe_release c2StateB c2HandleA (by decide) (by decide)).1 (by decide)⟩

/-- Claim C3: idempotent release.  Releasing twice equals releasing once, on
the store and on the handle; and the second call never throws and never runs a
store operation, even when the store would have raised an error on an actual
round trip. -/
theorem spec_C3_idempotent_release (st : RedisState) (f : ReleaseFunc) :
    release (release st f).1 (release st f).2 = release st f ∧
    (∀ err : Option String,
      releaseWithError (release st f).1 (release st f).2 err
        = Except.ok (release st f)) := by
  by_cases h1 : f.acquired = false
  · simp [release, releaseWithError, h1]
  · by_cases h2 : f.released = true
    · simp [release, releaseWithError, h1, h2]
    · simp [release, releaseWithError, h1, h2]

/-- Claim C4: fencing tokens.  One tryLock INCRs the global counter exactly
once on success and leaves it untouched on failure, the issued token is the
new counter value (the sentinel -1 on failure), and over any event trace the
tokens of the successful acquisitions, in issuance order, strictly increase
(the counter is shared by all lock names: the behavior below does not depend
on the name). -/
theorem spec_C4_fencing_tokens (st : RedisState) (n v : String) (t : Nat)
    (evs : List Ev) :
    ((tryLock st n v t).2.counter
        = if (tryLock st n v t).1.1 then st.counter + 1 else st.counter) ∧
    ((tryLock st n v t).1.2.fencingToken
        = if (tryLock st n v t).1.1 then ((st.counter + 1 : Nat) : Int) else -1) ∧
    List.Chain' (fun a b : Int => a < b) (runEvents st evs).2 := by
  by_cases h : redisGet st (getLockKey n) = none
  · simp [tryLock_of_absent st n v t h, (runEvents_tokens evs st).2]
  · obtain ⟨w, hw⟩ := Option.ne_none_iff_exists'.mp h
    simp [tryLock_of_live st n v w t hw, (runEvents_tokens evs st).2]

/-- Claim C5: failed tryLock.  When the key is already present the call leaves
the store unchanged and hands back the dummy handle: fencing token -1, and
release and refreshTimeout actions that, in any store state, change nothing
and never throw. -/
theorem spec_C5_failed_trylock (st : RedisState) (n v : String) (t : Nat)
    (h : (tryLock st n v t).1.1 = false) :
    (tryLock st n v t).2 = st ∧
    (tryLock st n v t).1.2.fencingToken = -1 ∧
    (∀ st2 : RedisState, release st2 (tryLock st n v t).1.2
        = (st2, (tryLock st n v t).1.2)) ∧
    (∀ st2 : RedisState, refreshTimeout st2 (tryLock st n v t).1.2
        = (st2, (tryLock st n v t).1.2)) ∧
    (∀ (st2 : RedisState) (err : Option String),
      releaseWithError st2 (tryLock st n v t).1.2 err
        = Except.ok (st2, (tryLock st n v t).1.2)) := by
  by_cases hg : redisGet st (getLockKey n) = none
  · exfalso
    rw [tryLock_of_absent st n v t hg] at h
    simp at h
  · obtain ⟨w, hw⟩ := Option.ne_none_iff_exists'.mp hg
    have hr := tryLock_of_live st n v w t hw
    rw [hr]
    simp [release, refreshTimeout, releaseWithError]

/-- Witness for C5: a tryLock on "r" against a store whose key for "r" is live
fails, changes nothing, and carries fencing token -1. -/
theorem spec_C5_witness :
    (tryLock (⟨[("@simple-redis-mutex:lock-r", "a", 100)], 1, [], 0⟩ : RedisState)
        "r" "b" 100).2
      = (⟨[("@simple-redis-mutex:lock-r", "a", 100)], 1, [], 0⟩ : RedisState) ∧
    (tryLock (⟨[("@simple-redis-mutex:lock-r", "a", 100)], 1, [], 0⟩ : RedisState)
        "r" "b" 100).1.2.fencingToken = -1 :=
  ⟨(spec_C5_failed_trylock _ "r" "b" 100 (by decide)).1,
   (spec_C5_failed_trylock _ "r" "b" 100 (by decide)).2.1⟩

/-- Claim C6: deadline enforcement.  When the failAfter timer of a pending
blocking acquire fires, the resulting state has the promise rejected with the
error naming the lock and the deadline, onFail run exactly once more, the
attempting flag off, the waiter registration removed and both timers cleared;
afterwards an attempt event is a complete no-op (no store round trip, store
unchanged), the deadline cannot fire again, and no later settlement can change
the outcome, so exactly one outcome is ever produced. -/
theorem spec_C6_deadline_enforcement (op op2 : LockOp) (lockName : String)
    (failAfter : Nat)
    (hact : op.failActive = true) (huns : op.settled = none)
    (hop : op2 = deadlineStep op lockName failAfter) :
    op2.settled = some (Except.error (failMessage lockName failAfter)) ∧
    op2.onFailCount = op.onFailCount + 1 ∧
    op2.attempting = false ∧ op2.registered = false ∧
    op2.pollingActive = false ∧ op2.failActive = false ∧
    (∀ (st : RedisState) (lv : String) (t : Nat),
      attemptStep op2 st lockName lv t = (op2, st)) ∧
    (∀ f2 : Nat, deadlineStep op2 lockName f2 = op2) ∧
    (∀ r : Except String ReleaseFunc, settle op2 r = op2) := by
  subst hop
  simp [deadlineStep, clean, settle, hact, huns, attemptStep]

/-- Witness for C6: a freshly started blocking acquire (polling and deadline
timers scheduled) whose 500 ms deadline fires: rejected with the named error,
onFail ran once, deregistered, and a later attempt event changes nothing. -/
theorem spec_C6_witness :
    (deadlineStep (lockInit true true) "r" 500).settled
      = some (Except.error (failMessage "r" 500)) ∧
    (deadlineStep (lockInit true true) "r" 500).onFailCount = 1 ∧
    (deadlineStep (lockInit true true) "r" 500).registered = false ∧
    attemptStep (deadlineStep (lockInit true true) "r" 500)
        (⟨[], 0, [], 0⟩ : RedisState) "r" "v" 100
      = (deadlineStep (lockInit true true) "r" 500, (⟨[], 0, [], 0⟩ : RedisState)) := by
  have H := spec_C6_deadline_enforcement (lockInit true true)
    (deadlineStep (lockInit true true) "r" 500) "r" 500 rfl rfl rfl
  exact ⟨H.1, H.2.1, H.2.2.2.1, H.2.2.2.2.2.2.1 _ "v" 100⟩

/-- Counterexample to claim C7 as stated: with the lock still held and the
store raising a connection error on the release round trip, the current
implementation's release propagates the error to the caller (src/index.ts
lines 150 and 160) instead of only logging it. -/
theorem spec_C7_counterexample :
    releaseWithError
        (⟨[("@simple-redis-mutex:lock-r", "va", 100)], 1, [], 0⟩ : RedisState)
        (⟨true, "@simple-redis-mutex:lock-r", "va", 100, 1, false⟩ : ReleaseFunc)
        (some "ECONNRESET")
      = Except.error "ECONNRESET" := rfl

/-- Claim C7 amended: in the earlier generation (src/src/index.ts lines
134-144) a release-time store failure is caught and logged and the release
call always returns normally; in the current generation (src/index.ts lines
141-165) a store error other than a recovered script-cache miss propagates to
the caller of a live handle's release. -/
theorem spec_C7_release_error_handling (st : RedisState) (f : ReleaseFunc)
    (hacq : f.acquired = true) (hrel : f.released = false) :
    (∀ err : Option String, (releaseLogged st f err).isOk = true) ∧
    (∀ e : String, releaseWithError st f (some e) = Except.error e) := by
  constructor
  · intro err
    cases err <;> simp [releaseLogged, hrel, Except.isOk, Except.toBool]
  · intro e
    simp [releaseWithError, hacq, hrel]

/-- Witness for C7: at a concrete held lock, the earlier generation's release
returns normally under a store error while the current generation's release
surfaces it. -/
theorem spec_C7_witness :
    (releaseLogged
        (⟨[("@simple-redis-mutex:lock-r", "va", 100)], 1, [], 0⟩ : RedisState)
        (⟨true, "@simple-redis-mutex:lock-r", "va", 100, 1, false⟩ : ReleaseFunc)
        (some "EPIPE")).isOk = true ∧
    releaseWithError
        (⟨[("@simple-redis-mutex:lock-r", "va", 100)], 1, [], 0⟩ : RedisState)
        (⟨true, "@simple-redis-mutex:lock-r", "va", 100, 1, false⟩ : ReleaseFunc)
        (some "EPIPE")
      = Except.error "EPIPE" :=
  ⟨(spec_C7_release_error_handling _ _ rfl rfl).1 (some "EPIPE"),
   (spec_C7_release_error_handling _ _ rfl rfl).2 "EPIPE"⟩

/-- Claim C9: lease renewal is conditional on ownership.  For a handle of a
successful acquisition: while its value is still stored at the key,
refreshTimeout resets the key's expiry deadline to the original timeout from
now and leaves the handle live; once the handle is released or the key holds a
different value (new holder or expired), refreshTimeout performs no store
update at all. -/
theorem spec_C9_lease_renewal (st : RedisState) (f : ReleaseFunc)
    (hacq : f.acquired = true) :
    (f.released = false → redisGet st f.lockKey = some f.lockValue →
      refreshTimeout st f
        = ({ st with kv := kvSet st.kv f.lockKey f.lockValue (st.now + f.timeout) },
           f)) ∧
    ((f.released = true ∨ redisGet st f.lockKey ≠ some f.lockValue) →
      (refreshTimeout st f).1 = st) := by
  constructor
  · intro h1 h2
    have h3 := h2
    unfold redisGet at h3
    cases hf : kvFind st.kv f.lockKey with
    | none => rw [hf] at h3; simp at h3
    | some vd =>
      rw [hf] at h3
      by_cases hlt : st.now < vd.2
      · simp only [hlt, if_true] at h3
        have hv : vd.1 = f.lockValue := by simpa using h3
        simp [refreshTimeout, hacq, h1, h2, redisPExpire, hf, hlt, hv]
      · simp [hlt] at h3
  · intro h
    simp [refreshTimeout, hacq, h]

/-- Witness for C9: renewing a still-owned lease at time 10 with original
timeout 50 moves the expiry deadline to 60; renewing when the key belongs to a
new holder leaves the store unchanged. -/
theorem spec_C9_witness :
    refreshTimeout
        (⟨[("@simple-redis-mutex:lock-r", "va", 50)], 1, [], 10⟩ : RedisState)
        (⟨true, "@simple-redis-mutex:lock-r", "va", 50, 1, false⟩ : ReleaseFunc)
      = ((⟨[("@simple-redis-mutex:lock-r", "va", 60)], 1, [], 10⟩ : RedisState),
         (⟨true, "@simple-redis-mutex:lock-r", "va", 50, 1, false⟩ : ReleaseFunc)) ∧
    (refreshTimeout
        (⟨[("@simple-redis-mutex:lock-r", "vb", 50)], 1, [], 10⟩ : RedisState)
        (⟨true, "@simple-redis-mutex:lock-r", "va", 50, 1, false⟩ : ReleaseFunc)).1
      = (⟨[("@simple-redis-mutex:lock-r", "vb", 50)], 1, [], 10⟩ : RedisState) := by
  constructor
  · exact ((spec_C9_lease_renewal
      (⟨[("@simple-redis-mutex:lock-r", "va", 50)], 1, [], 10⟩ : RedisState)
      (⟨true, "@simple-redis-mutex:lock-r", "va", 50, 1, false⟩ : ReleaseFunc)
      rfl).1 rfl (by decide)).trans (by decide)
  · exact (spec_C9_lease_renewal
      (⟨[("@simple-redis-mutex:lock-r", "vb", 50)], 1, [], 10⟩ : RedisState)
      (⟨true, "@simple-redis-mutex:lock-r", "va", 50, 1, false⟩ : ReleaseFunc)
      rfl).2 (by decide)

/-- Claim C10 (implicit): a refreshTimeout that finds the lock no longer owned
permanently marks the handle released, so every later release call on that
handle returns immediately, changes no store state and never throws. -/
theorem spec_C10_refresh_marks_released (st : RedisState) (f : ReleaseFunc)
    (hacq : f.acquired = true)
    (h : f.released = true ∨ redisGet st f.lockKey ≠ some f.lockValue) :
    (refreshTimeout st f).2.released = true ∧
    (∀ st2 : RedisState, release st2 (refreshTimeout st f).2
        = (st2, (refreshTimeout st f).2)) ∧
    (∀ (st2 : RedisState) (err : Option String),
      releaseWithError st2 (refreshTimeout st f).2 err
        = Except.ok (st2, (refreshTimeout st f).2)) := by
  have hr : refreshTimeout st f = (st, { f with released := true }) := by
    simp [refreshTimeout, hacq, h]
  rw [hr]
  simp [release, releaseWithError, hacq]

/-- Witness for C10: a handle whose key has expired is marked released by
refreshTimeout, and its later release against a store where a new holder owns
the key leaves that store untouched. -/
theorem spec_C10_witness :
    ((refreshTimeout (⟨[], 0, [], 0⟩ : RedisState)
        (⟨true, "@simple-redis-mutex:lock-r", "va", 50, 1, false⟩ :
          ReleaseFunc)).2).released = true ∧
    release (⟨[("@simple-redis-mutex:lock-r", "vb", 99)], 2, [], 0⟩ : RedisState)
        (refreshTimeout (⟨[], 0, [], 0⟩ : RedisState)
          (⟨true, "@simple-redis-mutex:lock-r", "va", 50, 1, false⟩ :
            ReleaseFunc)).2
      = ((⟨[("@simple-redis-mutex:lock-r", "vb", 99)], 2, [], 0⟩ : RedisState),
         (refreshTimeout (⟨[], 0, [], 0⟩ : RedisState)
           (⟨true, "@simple-redis-mutex:lock-r", "va", 50, 1, false⟩ :
             ReleaseFunc)).2) :=
  ⟨(spec_C10_refresh_marks_released _ _ rfl (by decide)).1,
   (spec_C10_refresh_marks_released _ _ rfl (by decide)).2.1 _⟩
